import Mathlib

/-!
Shallow embedding of the linkhound website analyzer (src/app.py) and proofs
about it.  The Python source is translated function by function into
executable Lean definitions; external collaborators (HTTP fetch client, HTML
parser, Selenium rendering engine, urllib's urljoin/urlparse) enter through an
`Env` record of oracle functions.  Python `str` primitives are modelled as
structurally recursive functions over `List Char` so that every definition
evaluates inside the kernel.
-/

namespace LinkHound

/-! ### Python string primitives, modelled over `List Char` -/

/-- Python `str.lower()`. -/
def pyLower (s : String) : String := String.mk (s.data.map Char.toLower)

/-- Strip leading/trailing whitespace from a char list. -/
def listStrip (l : List Char) : List Char :=
  ((l.dropWhile Char.isWhitespace).reverse.dropWhile Char.isWhitespace).reverse

/-- Python `str.strip()` (also models BeautifulSoup's `get_text(strip=True)`
and attribute `.strip()` calls). -/
def pyStrip (s : String) : String := String.mk (listStrip s.data)

/-- Python `str.startswith(pat)`. -/
def pyStartsWith (s pat : String) : Bool := pat.data.isPrefixOf s.data

/-- Python `str.endswith(pat)`. -/
def pyEndsWith (s pat : String) : Bool := pat.data.reverse.isPrefixOf s.data.reverse

/-- Substring occurrence test on char lists (Python's `pat in s`). -/
def listContainsSub : List Char → List Char → Bool
  | _, [] => true
  | [], _ :: _ => false
  | c :: rest, p :: ps => (p :: ps).isPrefixOf (c :: rest) || listContainsSub rest (p :: ps)

/-- Python `pat in s` for strings. -/
def pyIn (pat s : String) : Bool := listContainsSub s.data pat.data

/-- Helper for `pySplitWs`: split a char list on whitespace runs, dropping
empty words (the behaviour of Python's argument-less `str.split()`). -/
def listSplitWsAux : List Char → List Char → List (List Char)
  | [], cur => if cur.isEmpty then [] else [cur.reverse]
  | c :: rest, cur =>
    if c.isWhitespace then
      if cur.isEmpty then listSplitWsAux rest []
      else cur.reverse :: listSplitWsAux rest []
    else listSplitWsAux rest (c :: cur)

/-- Python `str.split()` with no separator argument. -/
def pySplitWs (s : String) : List String := (listSplitWsAux s.data []).map String.mk

/-- Helper for `pyReplace`: replace non-overlapping occurrences of `pat`
left-to-right.  The `Nat` fuel argument is bounded by the input length; every
step consumes at least one character, so the fuel never runs out on the
initial call from `pyReplace`. -/
def listReplaceAux (pat rep : List Char) : Nat → List Char → List Char
  | _, [] => []
  | 0, l => l
  | Nat.succ fuel, c :: rest =>
    if !pat.isEmpty && pat.isPrefixOf (c :: rest) then
      rep ++ listReplaceAux pat rep fuel (List.drop (pat.length - 1) rest)
    else c :: listReplaceAux pat rep fuel rest

/-- Python `s.replace(pat, rep)`. -/
def pyReplace (s pat rep : String) : String :=
  String.mk (listReplaceAux pat.data rep.data s.data.length s.data)

/-- Lexicographic strict comparison of char lists by code point, the order
underlying Python's string `<`. -/
def listCharLt : List Char → List Char → Bool
  | [], [] => false
  | [], _ :: _ => true
  | _ :: _, [] => false
  | a :: as, b :: bs => if a < b then true else if b < a then false else listCharLt as bs

/-- Python string `<=`, used by `list.sort()` on strings. -/
def pyStrLe (a b : String) : Bool := !(listCharLt b.data a.data)

/-! ### Data model -/

/-- One slot of a redirect status-code chain.  Python stores `int` status
codes but the string `'ERROR'` on the failure path, so the slot type is a
tagged union. -/
inductive StatusCode where
  | code : Nat → StatusCode
  | error : StatusCode
deriving DecidableEq, Repr

/-- Result of `check_redirect_chain` (the dict built in src/app.py lines
104-137). -/
structure RedirectInfo where
  is_redirect : Bool
  original_url : String
  final_url : String
  redirect_count : Nat
  status_codes : List StatusCode
  redirect_chain : List String
deriving DecidableEq, Repr

/-- Response of the collaborator fetch client's `head` call
(`session.head(url, allow_redirects=True)`): the redirect history as
(status code, url) pairs plus the terminal response's status and url. -/
structure HeadResponse where
  history : List (Nat × String)
  status : Nat
  url : String
deriving DecidableEq, Repr

/-- Response of the collaborator fetch client's `get` call, as far as
`crawl_page` consumes it: the `content-type` header and the body text.
A `get` that raises (connection error, timeout, or `raise_for_status` on a
non-2xx response) is modelled as the oracle returning `none`. -/
structure GetResponse where
  content_type : String
  body : String
deriving DecidableEq, Repr

/-- One `<a href=...>` element as produced by the HTML-parsing collaborator
after script/style subtree removal: its `href` attribute, its visible text
content (`get_text`), and the `alt` attribute of a contained `<img>` if any
(`none` when the link contains no image; the alt of an image with no alt
attribute is the empty string, matching `img.get('alt', '')`). -/
structure Link where
  href : String
  text : String
  img : Option String
deriving DecidableEq, Repr

/-- The external collaborators consumed by the analyzer, as oracle
functions. -/
structure Env where
  parse : String → List Link
  urljoin : String → String → String
  netloc : String → String
  path : String → String
  get : String → Option GetResponse
  head : String → Option HeadResponse
  selenium_available : Bool
  selenium_page : String → Option String

/-- The immutable per-job configuration taken from `WebsiteAnalyzer.__init__`. -/
structure Config where
  base_url : String
  domain : String
  max_pages : Nat
  max_depth : Nat
  selenium_threshold : Nat
deriving DecidableEq, Repr

/-- One discovered hyperlink (the `anchor_data` dict of
`extract_anchor_data`).  The `full_tag`, `attributes` and `timestamp` fields
(raw markup string, attribute dict, wall-clock time) are not modelled. -/
structure AnchorRecord where
  id : Nat
  page_url : String
  page_depth : Nat
  original_href : String
  absolute_url : String
  anchor_text : String
  anchor_text_type : String
  is_internal : Bool
  redirect_info : Option RedirectInfo
  extraction_method : String
  anchor_index_on_page : Nat
deriving DecidableEq, Repr

/-- One entry of `self.redirect_links` (kept only for links that actually
redirect).  `full_tag` and `timestamp` are not modelled. -/
structure RedirectLinkRecord where
  page_containing_link : String
  link_text : String
  original_url : String
  final_url : String
  redirect_count : Nat
  redirect_chain : List String
  status_codes : List StatusCode
  page_depth : Nat
deriving DecidableEq, Repr

/-- One entry of an `anchor_text_analysis` bucket. -/
structure AggItem where
  text : String
  text_type : String
  source_page : String
  is_redirect : Bool
deriving DecidableEq, Repr

/-- The mutable state of a `WebsiteAnalyzer` job.  `anchor_text_analysis` is
Python's insertion-ordered `defaultdict(list)` modelled as an association
list.  `ever_enqueued` is ghost instrumentation recording every entry ever
pushed onto `urls_to_visit` (including the seed), used to state history
properties; it is written exactly where `urls_to_visit` is extended and read
nowhere in the model of the code. -/
structure AnalyzerState where
  visited_urls : List String
  urls_to_visit : List (String × Nat)
  anchor_tags : List AnchorRecord
  redirect_links : List RedirectLinkRecord
  anchor_text_analysis : List (String × List AggItem)
  crawl_complete : Bool
  ever_enqueued : List (String × Nat)
deriving DecidableEq, Repr

/-! ### URL normalizer and internal-link filter -/

/-- `WebsiteAnalyzer._clean_url`: prefix `https://` when no scheme is
present, then strip the fragment (`urldefrag` keeps everything before the
first `#`). -/
def clean_url (url : String) : String :=
  let url2 :=
    if pyStartsWith url "http://" || pyStartsWith url "https://" then url
    else "https://" ++ url
  String.mk (url2.data.takeWhile (fun c => c != '#'))

/-- The fixed non-HTML extension denylist of `is_valid_internal_url`. -/
def skip_extensions : List String :=
  [".jpg", ".jpeg", ".png", ".gif", ".pdf", ".zip",
   ".css", ".js", ".ico", ".svg", ".woff", ".woff2"]

/-- `WebsiteAnalyzer.is_valid_internal_url`. -/
def is_valid_internal_url (env : Env) (cfg : Config) (url : String) : Bool :=
  if env.netloc url != cfg.domain then false
  else if skip_extensions.any (fun ext => pyEndsWith (pyLower (env.path url)) ext) then false
  else true

/-! ### Redirect resolver -/

/-- `WebsiteAnalyzer.check_redirect_chain`.  The `head` fetch outcome is
passed as an argument; `none` is the `except Exception` branch (any network
error, timeout or TLS failure). -/
def check_redirect_chain (url : String) : Option HeadResponse → RedirectInfo
  | some resp =>
    let redirect_count := resp.history.length
    if 0 < redirect_count then
      { is_redirect := true
        original_url := url
        final_url := resp.url
        redirect_count := redirect_count
        status_codes := resp.history.map (fun h => StatusCode.code h.1) ++ [StatusCode.code resp.status]
        redirect_chain := resp.history.map (fun h => h.2) ++ [resp.url] }
    else
      { is_redirect := false
        original_url := url
        final_url := url
        redirect_count := 0
        status_codes := [StatusCode.code resp.status]
        redirect_chain := [url] }
  | none =>
    { is_redirect := false
      original_url := url
      final_url := url
      redirect_count := 0
      status_codes := [StatusCode.error]
      redirect_chain := [url] }

/-! ### Anchor text extraction and classification -/

/-- The display form of a naked-URL href used by `_extract_anchor_text`:
`href.replace('http://','').replace('https://','').replace('www.','')` with a
trailing `/` removed. -/
def naked_url_display (href : String) : String :=
  let c := pyReplace (pyReplace (pyReplace href "http://" "") "https://" "") "www." ""
  if pyEndsWith c "/" then String.mk c.data.dropLast else c

/-- `WebsiteAnalyzer._extract_anchor_text`. -/
def extract_anchor_text (link : Link) : String :=
  let text := pyStrip link.text
  if text != "" then text
  else
    match link.img with
    | some alt =>
      let alt_text := pyStrip alt
      if alt_text != "" then "[Image: " ++ alt_text ++ "]"
      else "[Image with missing alt text]"
    | none =>
      if link.href != "" then "[Naked URL: " ++ naked_url_display link.href ++ "]"
      else "[Empty link]"

/-- The generic-phrase list of `_classify_anchor_text`. -/
def generic_words : List String := ["click here", "read more", "learn more", "see more"]

/-- `WebsiteAnalyzer._classify_anchor_text` (the `link` parameter of the
Python method is unused by its body and omitted). -/
def classify_anchor_text (text : String) : String :=
  let text_lower := pyLower text
  if pyStartsWith text "[Image" then "image"
  else if pyStartsWith text "[Naked URL" then "naked_url"
  else if pyStartsWith text "[Empty" then "empty"
  else if generic_words.any (fun w => pyIn w text_lower) then "generic"
  else if 8 < (pySplitWs text).length then "long_descriptive"
  else if (pySplitWs text).length ≤ 2 then "short"
  else "descriptive"

/-! ### Anchor extraction (per page) -/

/-- Append an item to the bucket of `key` in the insertion-ordered
`anchor_text_analysis` map; a missing key is created at the end
(`defaultdict(list)` + `append`). -/
def agg_append (agg : List (String × List AggItem)) (key : String) (item : AggItem) :
    List (String × List AggItem) :=
  match agg with
  | [] => [(key, [item])]
  | (k, items) :: rest =>
    if k = key then (k, items ++ [item]) :: rest
    else (k, items) :: agg_append rest key item

/-- The bucket of a key in the `anchor_text_analysis` map (first matching
entry; `agg_append` keeps keys unique, so this is dict lookup, with `[]` for
a missing key). -/
def agg_bucket : List (String × List AggItem) → String → List AggItem
  | [], _ => []
  | (k, items) :: rest, key => if k = key then items else agg_bucket rest key

/-- src/app.py lines 200-213: record an actually-redirecting link in
`self.redirect_links`. -/
def store_redirect_link (s : AnalyzerState) (page_url anchor_text : String) (depth : Nat) :
    Option RedirectInfo → AnalyzerState
  | some ri =>
    if ri.is_redirect then
      { s with redirect_links := s.redirect_links ++
          [{ page_containing_link := page_url
             link_text := anchor_text
             original_url := ri.original_url
             final_url := ri.final_url
             redirect_count := ri.redirect_count
             redirect_chain := ri.redirect_chain
             status_codes := ri.status_codes
             page_depth := depth }] }
    else s
  | none => s

/-- The aggregation/enqueue key of a link: the resolver's final URL, or the
raw resolved target when no resolver ran (lines 217 and 227). -/
def link_final_url (absolute_url : String) : Option RedirectInfo → String
  | some ri => ri.final_url
  | none => absolute_url

/-- src/app.py lines 215-223: aggregate the anchor text of an internal link
under the link's final URL. -/
def store_anchor_text (s : AnalyzerState) (page_url anchor_text absolute_url : String)
    (is_int : Bool) (redirect_info : Option RedirectInfo) : AnalyzerState :=
  if is_int then
    let item : AggItem :=
      { text := anchor_text
        text_type := classify_anchor_text anchor_text
        source_page := page_url
        is_redirect := (match redirect_info with
          | some ri => ri.is_redirect
          | none => false) }
    let key := link_final_url absolute_url redirect_info
    { s with anchor_text_analysis := agg_append s.anchor_text_analysis key item }
  else s

/-- src/app.py lines 225-229: enqueue an internal, depth-within-bound,
unvisited target while the frontier is still below the page cap. -/
def enqueue_target (cfg : Config) (s : AnalyzerState) (depth : Nat)
    (absolute_url : String) (is_int : Bool) (redirect_info : Option RedirectInfo) :
    AnalyzerState :=
  if is_int && decide (depth < cfg.max_depth) then
    let final_url := link_final_url absolute_url redirect_info
    if !(s.visited_urls.contains final_url) &&
        decide (s.urls_to_visit.length < cfg.max_pages) then
      { s with urls_to_visit := s.urls_to_visit ++ [(final_url, depth + 1)]
               ever_enqueued := s.ever_enqueued ++ [(final_url, depth + 1)] }
    else s
  else s

/-- The body of the `for index, link in enumerate(links)` loop of
`extract_anchor_data`.  `anchor_tags_len` is `len(self.anchor_tags)` at loop
entry (the page's records are held in `page_anchors` until the loop ends).
The accumulator carries the analyzer state and `page_anchors`. -/
def process_link (env : Env) (cfg : Config) (page_url : String) (depth : Nat)
    (method : String) (anchor_tags_len : Nat)
    (acc : AnalyzerState × List AnchorRecord) (idx : Nat) (link : Link) :
    AnalyzerState × List AnchorRecord :=
  let href := pyStrip link.href
  if href == "" || pyStartsWith href "javascript:" || pyStartsWith href "tel:" then acc
  else
    let anchor_text := extract_anchor_text link
    let absolute_url := env.urljoin page_url href
    let is_int := is_valid_internal_url env cfg absolute_url
    let redirect_info : Option RedirectInfo :=
      if is_int then some (check_redirect_chain absolute_url (env.head absolute_url)) else none
    let record : AnchorRecord :=
      { id := anchor_tags_len + acc.2.length + 1
        page_url := page_url
        page_depth := depth
        original_href := href
        absolute_url := absolute_url
        anchor_text := anchor_text
        anchor_text_type := classify_anchor_text anchor_text
        is_internal := is_int
        redirect_info := redirect_info
        extraction_method := method
        anchor_index_on_page := idx + 1 }
    let s1 := store_redirect_link acc.1 page_url anchor_text depth redirect_info
    let s2 := store_anchor_text s1 page_url anchor_text absolute_url is_int redirect_info
    let s3 := enqueue_target cfg s2 depth absolute_url is_int redirect_info
    (s3, acc.2 ++ [record])

/-- `WebsiteAnalyzer.extract_anchor_data`: parse, loop over the links, then
extend `self.anchor_tags` with the page's records.  Returns the new state
together with `page_anchors`. -/
def extract_anchor_data (env : Env) (cfg : Config) (html_content : String)
    (page_url : String) (depth : Nat) (method : String) (s : AnalyzerState) :
    AnalyzerState × List AnchorRecord :=
  let links := env.parse html_content
  let r := links.enum.foldl
    (fun acc il => process_link env cfg page_url depth method s.anchor_tags.length acc il.1 il.2)
    (s, [])
  ({ r.1 with anchor_tags := r.1.anchor_tags ++ r.2 }, r.2)

/-! ### Fetch strategy selector -/

/-- The fixed SPA marker list of `should_use_selenium`. -/
def spa_indicators : List String := ["react", "angular", "vue.js", "data-reactroot", "ng-app"]

/-- `WebsiteAnalyzer.should_use_selenium` (the `url` parameter of the Python
method is unused by its body and omitted). -/
def should_use_selenium (env : Env) (cfg : Config) (response_text : String)
    (initial_link_count : Nat) : Bool × String :=
  if !env.selenium_available then (false, "Selenium not available")
  else if initial_link_count < cfg.selenium_threshold then (true, "Low link count")
  else if spa_indicators.any (fun ind => pyIn ind (pyLower response_text)) then
    (true, "SPA indicators found")
  else (false, "Standard parsing sufficient")

/-- The purge performed by `crawl_page` before re-extracting with Selenium
(src/app.py lines 315-323): drop the page's AnchorRecords and
RedirectLinkRecords and filter its items out of every
`anchor_text_analysis` bucket (keys are reassigned, never deleted). -/
def purge_page_artifacts (s : AnalyzerState) (url : String) : AnalyzerState :=
  { s with
    anchor_tags := s.anchor_tags.filter (fun a => !(decide (a.page_url = url)))
    redirect_links := s.redirect_links.filter (fun r => !(decide (r.page_containing_link = url)))
    anchor_text_analysis := s.anchor_text_analysis.map
      (fun kv => (kv.1, kv.2.filter (fun item => !(decide (item.source_page = url))))) }

/-- `WebsiteAnalyzer.extract_anchor_data_selenium`: `none` from the
`selenium_page` oracle covers both a failed driver setup and an exception
during the rendered fetch, each of which makes the Python method return `[]`
without touching the state. -/
def extract_anchor_data_selenium (env : Env) (cfg : Config) (url : String) (depth : Nat)
    (s : AnalyzerState) : AnalyzerState × List AnchorRecord :=
  match env.selenium_page url with
  | none => (s, [])
  | some page_source => extract_anchor_data env cfg page_source url depth "selenium" s

/-- `WebsiteAnalyzer.crawl_page`.  Returns the `(success, message)` pair of
the Python method together with the updated state. -/
def crawl_page (env : Env) (cfg : Config) (url : String) (depth : Nat) (s : AnalyzerState) :
    (Bool × String) × AnalyzerState :=
  match env.get url with
  | none => ((false, "Error"), s)
  | some resp =>
    if !(pyIn "text/html" (pyLower resp.content_type)) then
      ((false, "Non-HTML content"), s)
    else
      let r := extract_anchor_data env cfg resp.body url depth "requests" s
      let initial_count := r.2.length
      if (should_use_selenium env cfg resp.body initial_count).1 then
        let s2 := purge_page_artifacts r.1 url
        let r2 := extract_anchor_data_selenium env cfg url depth s2
        ((true, "Selenium"), r2.1)
      else ((true, "Requests"), r.1)

/-! ### Crawl scheduler -/

/-- The initial analyzer state built by `WebsiteAnalyzer.__init__`. -/
def init_state (cfg : Config) : AnalyzerState :=
  { visited_urls := []
    urls_to_visit := [(cfg.base_url, 0)]
    anchor_tags := []
    redirect_links := []
    anchor_text_analysis := []
    crawl_complete := false
    ever_enqueued := [(cfg.base_url, 0)] }

/-- Build the `Config` the way `__init__` does: normalize the seed and take
its host as the crawl domain. -/
def mk_config (env : Env) (raw_url : String) (max_pages max_depth selenium_threshold : Nat) :
    Config :=
  let b := clean_url raw_url
  { base_url := b
    domain := env.netloc b
    max_pages := max_pages
    max_depth := max_depth
    selenium_threshold := selenium_threshold }

/-- The `while self.urls_to_visit and crawled_count < self.max_pages` loop of
`start_analysis`, with explicit fuel (the Python loop need not terminate on an
unbounded site; every concrete run below uses ample fuel).  Returns the final
`crawled_count` and state. -/
def start_analysis_loop (env : Env) (cfg : Config) :
    Nat → Nat → AnalyzerState → Nat × AnalyzerState
  | 0, crawled, s => (crawled, s)
  | Nat.succ fuel, crawled, s =>
    match s.urls_to_visit with
    | [] => (crawled, s)
    | (url, depth) :: rest =>
      if crawled < cfg.max_pages then
        let s1 := { s with urls_to_visit := rest }
        if decide (url ∈ s1.visited_urls) || decide (cfg.max_depth < depth) then
          start_analysis_loop env cfg fuel crawled s1
        else
          let s2 := { s1 with visited_urls := s1.visited_urls ++ [url] }
          let r := crawl_page env cfg url depth s2
          start_analysis_loop env cfg fuel (if r.1.1 then crawled + 1 else crawled) r.2
      else (crawled, s)

/-- `WebsiteAnalyzer.start_analysis`: run the loop from the initial state,
then mark the crawl complete.  Returns the final `crawled_count` and state. -/
def start_analysis (env : Env) (cfg : Config) (fuel : Nat) : Nat × AnalyzerState :=
  let r := start_analysis_loop env cfg fuel 0 (init_state cfg)
  (r.1, { r.2 with crawl_complete := true })

/-! ### Aggregation index, query side -/

/-- First-occurrence deduplication (the key order of a Python `Counter` /
insertion-ordered dict). -/
def dedup_first : List String → List String
  | [] => []
  | a :: l => a :: (dedup_first l).filter (fun b => !(decide (b = a)))

/-- The multiplicity of `t` in `l` (what `Counter` counts). -/
def py_count (l : List String) (t : String) : Nat :=
  (l.filter (fun x => decide (x = t))).length

/-- The `(text, count)` pairs of `Counter(texts)` in key-insertion order. -/
def counter_items (texts : List String) : List (String × Nat) :=
  (dedup_first texts).map (fun t => (t, py_count texts t))

/-- Stable descending-by-count insertion used by `most_common`. -/
def insert_by_count (a : String × Nat) : List (String × Nat) → List (String × Nat)
  | [] => [a]
  | b :: l => if b.2 ≤ a.2 then a :: b :: l else b :: insert_by_count a l

/-- `Counter.most_common()`: sort by descending count; Python's `sorted` is
stable, so ties keep key-insertion (= first-encountered) order. -/
def most_common : List (String × Nat) → List (String × Nat)
  | [] => []
  | a :: l => insert_by_count a (most_common l)

/-- One row of `report['anchor_text_breakdown']`. -/
structure BreakdownEntry where
  anchor_text : String
  count : Nat
  text_type : String
  source_pages_count : Nat
  source_pages : List String
  has_redirects : Bool
deriving DecidableEq, Repr

/-- The report returned by `get_anchor_text_report_for_url`. -/
structure AggReport where
  target_url : String
  total_links_found : Nat
  unique_anchor_texts : Nat
  anchor_text_breakdown : List BreakdownEntry
deriving DecidableEq, Repr

/-- A default report value (used only to state closed witness equations). -/
def empty_report : AggReport :=
  { target_url := "", total_links_found := 0, unique_anchor_texts := 0,
    anchor_text_breakdown := [] }

/-- A default anchor record (used only to state closed witness equations). -/
def default_anchor_record : AnchorRecord :=
  { id := 0, page_url := "", page_depth := 0, original_href := "", absolute_url := "",
    anchor_text := "", anchor_text_type := "", is_internal := false, redirect_info := none,
    extraction_method := "", anchor_index_on_page := 0 }

/-- The `matching_data` list of `get_anchor_text_report_for_url` for an
already-normalized target: the items of every `anchor_text_analysis` bucket
whose key equals the target, followed by one synthesised item per
`redirect_links` record whose final URL equals the target. -/
def matching_data_of (s : AnalyzerState) (target : String) : List AggItem :=
  ((s.anchor_text_analysis.filter (fun kv => decide (kv.1 = target))).map (fun kv => kv.2)).flatten
  ++ (s.redirect_links.filter (fun r => decide (r.final_url = target))).map
      (fun r =>
        { text := r.link_text
          text_type := classify_anchor_text r.link_text
          source_page := r.page_containing_link
          is_redirect := true })

/-- `text_details[text]['text_type']`: the loop overwrites the field on every
item with that text, so the last matching item wins. -/
def detail_text_type (matching : List AggItem) (t : String) : String :=
  ((matching.filter (fun it => decide (it.text = t))).map (fun it => it.text_type)).getLastD ""

/-- `text_details[text]['source_pages']`: the distinct source pages of the
items with that text (a Python `set`, modelled in first-occurrence order). -/
def source_pages_of (matching : List AggItem) (t : String) : List String :=
  dedup_first ((matching.filter (fun it => decide (it.text = t))).map (fun it => it.source_page))

/-- `text_details[text]['has_redirects']`: true once any item with that text
has `is_redirect`. -/
def detail_has_redirects (matching : List AggItem) (t : String) : Bool :=
  (matching.filter (fun it => decide (it.text = t))).any (fun it => it.is_redirect)

/-- `WebsiteAnalyzer.get_anchor_text_report_for_url`. -/
def get_anchor_text_report_for_url (s : AnalyzerState) (target_url : String) :
    Option AggReport :=
  let target := clean_url target_url
  let matching := matching_data_of s target
  if matching.isEmpty then none
  else
    let texts := matching.map (fun it => it.text)
    let items := counter_items texts
    some
      { target_url := target
        total_links_found := (items.map (fun tc => tc.2)).sum
        unique_anchor_texts := items.length
        anchor_text_breakdown := (most_common items).map (fun tc =>
          { anchor_text := tc.1
            count := tc.2
            text_type := detail_text_type matching tc.1
            source_pages_count := (source_pages_of matching tc.1).length
            source_pages := (source_pages_of matching tc.1).take 5
            has_redirects := detail_has_redirects matching tc.1 }) }

/-- Stable insertion for `sort_strings`. -/
def insert_str (a : String) : List String → List String
  | [] => [a]
  | b :: l => if pyStrLe a b then a :: b :: l else b :: insert_str a l

/-- Python `list.sort()` on strings. -/
def sort_strings : List String → List String
  | [] => []
  | a :: l => insert_str a (sort_strings l)

/-- The `/get_all_urls` route: every key of `anchor_text_analysis`, sorted. -/
def get_all_urls (s : AnalyzerState) : List String :=
  sort_strings (s.anchor_text_analysis.map (fun kv => kv.1))

/-- The `unique_urls_with_anchors` field of the `/analysis_status` route:
`len(self.anchor_text_analysis)`. -/
def unique_urls_with_anchors (s : AnalyzerState) : Nat :=
  s.anchor_text_analysis.length

/-! ### Concrete fixtures

Small closed environments used by witnesses and counterexamples.  They all
use the trivial URL-parsing oracle (every URL's host is `a.com`, every path
is empty) and absolute hrefs, so `urljoin` is the second projection. -/

/-- Fixture: the seed responds with a non-HTML content type. -/
def env_nonhtml : Env :=
  { parse := fun _ => []
    urljoin := fun _ href => href
    netloc := fun _ => "a.com"
    path := fun _ => ""
    get := fun _ => some { content_type := "application/pdf", body := "" }
    head := fun _ => none
    selenium_available := false
    selenium_page := fun _ => none }

def cfg_nonhtml : Config := mk_config env_nonhtml "https://a.com" 5 3 5

/-- Fixture: the seed page holds one internal link and the page cap is 1. -/
def env_two_pages : Env :=
  { parse := fun html =>
      if html = "pageA" then [{ href := "https://a.com/b", text := "b", img := none }] else []
    urljoin := fun _ href => href
    netloc := fun _ => "a.com"
    path := fun _ => ""
    get := fun url =>
      if url = "https://a.com" then some { content_type := "text/html", body := "pageA" }
      else some { content_type := "text/html", body := "" }
    head := fun u => some { history := [], status := 200, url := u }
    selenium_available := false
    selenium_page := fun _ => none }

def cfg_two_pages : Config := mk_config env_two_pages "https://a.com" 1 3 5

/-- Fixture: the plain pass finds one link (below the threshold of 5), the
rendering engine is available, and the rendered page holds a different
link. -/
def env_selenium : Env :=
  { parse := fun html =>
      if html = "plain" then [{ href := "https://a.com/p", text := "p", img := none }]
      else if html = "rendered" then [{ href := "https://a.com/r", text := "r", img := none }]
      else []
    urljoin := fun _ href => href
    netloc := fun _ => "a.com"
    path := fun _ => ""
    get := fun _ => some { content_type := "text/html", body := "plain" }
    head := fun u => some { history := [], status := 200, url := u }
    selenium_available := true
    selenium_page := fun _ => some "rendered" }

def cfg_selenium : Config := mk_config env_selenium "https://a.com" 10 3 5

/-- Fixture: like `env_selenium` but the rendered page holds no links, so the
fallback re-extraction leaves the purged aggregate bucket empty. -/
def env_vanishing : Env :=
  { parse := fun html =>
      if html = "plain" then [{ href := "https://a.com/p", text := "p", img := none }] else []
    urljoin := fun _ href => href
    netloc := fun _ => "a.com"
    path := fun _ => ""
    get := fun _ => some { content_type := "text/html", body := "plain" }
    head := fun u => some { history := [], status := 200, url := u }
    selenium_available := true
    selenium_page := fun _ => some "rendered" }

def cfg_vanishing : Config := mk_config env_vanishing "https://a.com" 10 3 5

/-- Fixture state for the report query: one aggregate bucket for
`https://t.com/x` with two items, plus one redirect record ending at the same
URL. -/
def report_state : AnalyzerState :=
  { visited_urls := ["https://a.com"]
    urls_to_visit := []
    anchor_tags := []
    redirect_links :=
      [{ page_containing_link := "https://a.com/c"
         link_text := "t1"
         original_url := "https://a.com/old"
         final_url := "https://t.com/x"
         redirect_count := 1
         redirect_chain := ["https://a.com/old", "https://t.com/x"]
         status_codes := [StatusCode.code 301, StatusCode.code 200]
         page_depth := 0 }]
    anchor_text_analysis :=
      [("https://t.com/x",
        [{ text := "t1", text_type := "short", source_page := "https://a.com", is_redirect := false },
         { text := "t2", text_type := "short", source_page := "https://a.com", is_redirect := false }])]
    crawl_complete := true
    ever_enqueued := [] }

/-! ## Helper lemmas -/

theorem isPrefixOf_self_append (p x : List Char) : p.isPrefixOf (p ++ x) = true := by
  induction p with
  | nil => cases x <;> rfl
  | cons a as ih => simp [List.isPrefixOf, ih]

theorem isPrefixOf_takeWhile (q : Char → Bool) :
    ∀ (pre l : List Char), pre.isPrefixOf l = true →
      (∀ c ∈ pre, q c = true) → pre.isPrefixOf (l.takeWhile q) = true
  | [], l, _, _ => by cases h : List.takeWhile q l <;> rfl
  | _ :: _, [], h, _ => by simp [List.isPrefixOf] at h
  | a :: pre, b :: l, h, hq => by
    simp only [List.isPrefixOf, Bool.and_eq_true, beq_iff_eq] at h
    obtain ⟨rfl, h2⟩ := h
    have hqa : q a = true := hq a (List.mem_cons_self a pre)
    have ih := isPrefixOf_takeWhile q pre l h2 (fun c hc => hq c (List.mem_cons_of_mem a hc))
    simp [List.takeWhile, hqa, List.isPrefixOf, ih]

theorem takeWhile_idem_helper (q : Char → Bool) (l : List Char) :
    (l.takeWhile q).takeWhile q = l.takeWhile q := by
  induction l with
  | nil => rfl
  | cons b l ih =>
    by_cases hb : q b = true
    · simp [List.takeWhile, hb, ih]
    · simp [List.takeWhile, Bool.of_not_eq_true hb]

/-- `clean_url` in terms of char lists. -/
theorem clean_url_data (u : String) :
    (clean_url u).data =
      (if pyStartsWith u "http://" || pyStartsWith u "https://" then u.data
       else "https://".data ++ u.data).takeWhile (fun c => c != '#') := by
  unfold clean_url
  split <;> simp_all [String.data_append]

theorem clean_url_of_scheme (s : String)
    (h : (pyStartsWith s "http://" || pyStartsWith s "https://") = true) :
    clean_url s = String.mk (s.data.takeWhile (fun c => c != '#')) := by
  unfold clean_url
  simp only [h, if_true]

/-! ## C9: idempotent URL normalization -/

/-- C9. URL normalization is idempotent (`clean_url (clean_url u) = clean_url u`
for every string `u`), its result contains no `#` (no fragment component), and
a URL that starts with neither `http://` nor `https://` gets the scheme
`https://` prefixed. -/
theorem clean_url_idempotent_no_fragment (u : String) :
    clean_url (clean_url u) = clean_url u ∧
    (∀ c ∈ (clean_url u).data, c ≠ '#') ∧
    (pyStartsWith u "http://" = false → pyStartsWith u "https://" = false →
      pyStartsWith (clean_url u) "https://" = true) := by
  have hq : ∀ c ∈ "https://".data, (c != '#') = true := by decide
  have hq' : ∀ c ∈ "http://".data, (c != '#') = true := by decide
  have key : (pyStartsWith (clean_url u) "http://" ||
      pyStartsWith (clean_url u) "https://") = true := by
    unfold pyStartsWith
    rw [clean_url_data]
    cases h1 : pyStartsWith u "http://" with
    | true =>
      simp only [h1, Bool.true_or, if_true]
      have := isPrefixOf_takeWhile (fun c => c != '#') _ _ h1 hq'
      simp [this]
    | false =>
      cases h2 : pyStartsWith u "https://" with
      | true =>
        simp only [h1, h2, Bool.false_or, if_true]
        have := isPrefixOf_takeWhile (fun c => c != '#') _ _ h2 hq
        simp [this]
      | false =>
        simp only [h1, h2, Bool.false_or, Bool.or_false, if_false]
        have := isPrefixOf_takeWhile (fun c => c != '#') _ _
          (isPrefixOf_self_append "https://".data u.data) hq
        simp [this]
  refine ⟨?_, ?_, ?_⟩
  · have htw : (clean_url u).data.takeWhile (fun c => c != '#') = (clean_url u).data := by
      rw [clean_url_data u]
      exact takeWhile_idem_helper _ _
    rw [clean_url_of_scheme (clean_url u) key, htw]
  · intro c hc
    rw [clean_url_data u] at hc
    have h3 := List.mem_takeWhile_imp hc
    simpa using h3
  · intro h1 h2
    unfold pyStartsWith
    rw [clean_url_data u]
    simp only [h1, h2, Bool.false_or, Bool.or_false, if_false]
    exact isPrefixOf_takeWhile (fun c => c != '#') _ _
      (isPrefixOf_self_append "https://".data u.data) hq

/-- Witness for C9 at a scheme-less URL with a fragment: the normalized form
gains the `https://` scheme. -/
theorem clean_url_idempotent_no_fragment_witness :
    pyStartsWith (clean_url "example.com/page#frag") "https://" = true :=
  (clean_url_idempotent_no_fragment "example.com/page#frag").2.2 (by decide) (by decide)

/-! ## C4: redirect chain consistency -/

/-- C4. Every `RedirectInfo` produced by `check_redirect_chain` — on the
redirect, non-redirect, and failure paths alike — has
`status_codes.length = redirect_chain.length = redirect_count + 1`, and when
`redirect_count = 0` the original URL equals the final URL. -/
theorem check_redirect_chain_consistent (url : String) (resp : Option HeadResponse) :
    (check_redirect_chain url resp).status_codes.length =
      (check_redirect_chain url resp).redirect_count + 1 ∧
    (check_redirect_chain url resp).redirect_chain.length =
      (check_redirect_chain url resp).redirect_count + 1 ∧
    ((check_redirect_chain url resp).redirect_count = 0 →
      (check_redirect_chain url resp).original_url = (check_redirect_chain url resp).final_url) := by
  cases resp with
  | none => simp [check_redirect_chain]
  | some r =>
    by_cases h : 0 < r.history.length
    · refine ⟨?_, ?_, ?_⟩
      · simp [check_redirect_chain, h]
      · simp [check_redirect_chain, h]
      · intro h0
        simp [check_redirect_chain, h] at h0
        rw [h0] at h
        simp at h
    · refine ⟨?_, ?_, ?_⟩ <;> simp [check_redirect_chain, h]

/-- Witness for C4 at a concrete non-redirect response: the zero-hop case
forces original = final. -/
theorem check_redirect_chain_consistent_witness :
    (check_redirect_chain "https://a.com/x" (some ⟨[], 200, "https://a.com/x"⟩)).redirect_count = 0 ∧
    (check_redirect_chain "https://a.com/x" (some ⟨[], 200, "https://a.com/x"⟩)).original_url =
      (check_redirect_chain "https://a.com/x" (some ⟨[], 200, "https://a.com/x"⟩)).final_url :=
  ⟨rfl, (check_redirect_chain_consistent "https://a.com/x"
    (some ⟨[], 200, "https://a.com/x"⟩)).2.2 rfl⟩

/-! ## C5: redirect resolution failure is recovered -/

/-- C5. When the metadata-only `head` fetch fails for any reason (the oracle
returns `none`, covering the `except Exception` branch), `check_redirect_chain`
returns normally with hop count 0, final URL equal to the original URL, a
single `ERROR` status-code slot, a chain holding only the original URL, and
`is_redirect = false` — the link is recorded as a non-redirect link to
itself. -/
theorem check_redirect_chain_failure_recovered (url : String) :
    check_redirect_chain url none =
      { is_redirect := false
        original_url := url
        final_url := url
        redirect_count := 0
        status_codes := [StatusCode.error]
        redirect_chain := [url] } := rfl

/-! ## C6: anchor text extraction precedence -/

/-- C6. `extract_anchor_text` follows the stated precedence: the stripped
visible text when non-empty; otherwise the image-alt forms when the link
contains an image; otherwise the naked-URL label for a non-empty href;
otherwise `"[Empty link]"`. -/
theorem extract_anchor_text_precedence (link : Link) :
    (pyStrip link.text ≠ "" → extract_anchor_text link = pyStrip link.text) ∧
    (pyStrip link.text = "" → ∀ alt, link.img = some alt → pyStrip alt ≠ "" →
      extract_anchor_text link = "[Image: " ++ pyStrip alt ++ "]") ∧
    (pyStrip link.text = "" → ∀ alt, link.img = some alt → pyStrip alt = "" →
      extract_anchor_text link = "[Image with missing alt text]") ∧
    (pyStrip link.text = "" → link.img = none → link.href ≠ "" →
      extract_anchor_text link = "[Naked URL: " ++ naked_url_display link.href ++ "]") ∧
    (pyStrip link.text = "" → link.img = none → link.href = "" →
      extract_anchor_text link = "[Empty link]") := by
  refine ⟨?_, ?_, ?_, ?_, ?_⟩
  · intro h
    simp [extract_anchor_text, h]
  · intro h alt halt hne
    simp [extract_anchor_text, h, halt, hne]
  · intro h alt halt heq
    simp [extract_anchor_text, h, halt, heq]
  · intro h himg hne
    simp [extract_anchor_text, h, himg, hne]
  · intro h himg heq
    simp [extract_anchor_text, h, himg, heq]

/-- Witness for C6 on concrete links exercising the text and naked-URL
branches. -/
theorem extract_anchor_text_precedence_witness :
    extract_anchor_text { href := "/x", text := "  Read this  ", img := none } = "Read this" ∧
    extract_anchor_text { href := "https://www.a.com/", text := " ", img := none } =
      "[Naked URL: a.com]" := by
  constructor
  · exact (extract_anchor_text_precedence
      { href := "/x", text := "  Read this  ", img := none }).1 (by decide)
  · exact (extract_anchor_text_precedence
      { href := "https://www.a.com/", text := " ", img := none }).2.2.2.1
      (by decide) rfl (by decide)

/-! ## C7: anchor text classification order -/

/-- C7. `classify_anchor_text` applies its rules in the stated order with
first match winning: `image`, `naked_url`, `empty`, `generic` (case-insensitive
containment of one of the fixed phrases), `long_descriptive` (more than 8
whitespace-delimited words), `short` (at most 2 words), else `descriptive`;
and `"Click here"` is classified `generic`. -/
theorem classify_anchor_text_order (text : String) :
    (pyStartsWith text "[Image" = true → classify_anchor_text text = "image") ∧
    (pyStartsWith text "[Image" = false → pyStartsWith text "[Naked URL" = true →
      classify_anchor_text text = "naked_url") ∧
    (pyStartsWith text "[Image" = false → pyStartsWith text "[Naked URL" = false →
      pyStartsWith text "[Empty" = true → classify_anchor_text text = "empty") ∧
    (pyStartsWith text "[Image" = false → pyStartsWith text "[Naked URL" = false →
      pyStartsWith text "[Empty" = false →
      generic_words.any (fun w => pyIn w (pyLower text)) = true →
      classify_anchor_text text = "generic") ∧
    (pyStartsWith text "[Image" = false → pyStartsWith text "[Naked URL" = false →
      pyStartsWith text "[Empty" = false →
      generic_words.any (fun w => pyIn w (pyLower text)) = false →
      8 < (pySplitWs text).length → classify_anchor_text text = "long_descriptive") ∧
    (pyStartsWith text "[Image" = false → pyStartsWith text "[Naked URL" = false →
      pyStartsWith text "[Empty" = false →
      generic_words.any (fun w => pyIn w (pyLower text)) = false →
      ¬(8 < (pySplitWs text).length) → (pySplitWs text).length ≤ 2 →
      classify_anchor_text text = "short") ∧
    (pyStartsWith text "[Image" = false → pyStartsWith text "[Naked URL" = false →
      pyStartsWith text "[Empty" = false →
      generic_words.any (fun w => pyIn w (pyLower text)) = false →
      ¬(8 < (pySplitWs text).length) → ¬((pySplitWs text).length ≤ 2) →
      classify_anchor_text text = "descriptive") ∧
    classify_anchor_text "Click here" = "generic" := by
  refine ⟨?_, ?_, ?_, ?_, ?_, ?_, ?_, by decide⟩
  · intro h1
    simp [classify_anchor_text, h1]
  · intro h1 h2
    simp [classify_anchor_text, h1, h2]
  · intro h1 h2 h3
    simp [classify_anchor_text, h1, h2, h3]
  · intro h1 h2 h3 h4
    simp [classify_anchor_text, h1, h2, h3, h4]
  · intro h1 h2 h3 h4 h5
    have h4' : ¬ ∃ w ∈ generic_words, pyIn w (pyLower text) = true := by simpa using h4
    simp [classify_anchor_text, h1, h2, h3, h4', h5]
  · intro h1 h2 h3 h4 h5 h6
    have h4' : ¬ ∃ w ∈ generic_words, pyIn w (pyLower text) = true := by simpa using h4
    simp [classify_anchor_text, h1, h2, h3, h4', h5, h6]
  · intro h1 h2 h3 h4 h5 h6
    have h4' : ¬ ∃ w ∈ generic_words, pyIn w (pyLower text) = true := by simpa using h4
    simp [classify_anchor_text, h1, h2, h3, h4', h5, h6]

/-- Witness for C7: `"Just go home now"` is 4 words, matches no earlier rule,
and lands in `descriptive`. -/
theorem classify_anchor_text_order_witness :
    classify_anchor_text "Just go home now" = "descriptive" :=
  (classify_anchor_text_order "Just go home now").2.2.2.2.2.2.1
    (by decide) (by decide) (by decide) (by decide) (by decide) (by decide)

/-! ## State-tracking lemmas for the extraction pipeline -/

theorem contains_false_not_mem {l : List String} {a : String}
    (h : l.contains a = false) : a ∉ l := by
  intro hm
  have h2 : l.contains a = true := List.elem_iff.mpr hm
  rw [h2] at h
  cases h

theorem store_redirect_link_state (s : AnalyzerState) (p t : String) (d : Nat)
    (ri : Option RedirectInfo) :
    ((store_redirect_link s p t d ri).visited_urls = s.visited_urls ∧
     (store_redirect_link s p t d ri).urls_to_visit = s.urls_to_visit ∧
     (store_redirect_link s p t d ri).ever_enqueued = s.ever_enqueued ∧
     (store_redirect_link s p t d ri).anchor_tags = s.anchor_tags ∧
     (store_redirect_link s p t d ri).anchor_text_analysis = s.anchor_text_analysis) ∧
    ((store_redirect_link s p t d ri).redirect_links = s.redirect_links ∨
     ∃ rcd : RedirectLinkRecord, rcd.page_containing_link = p ∧
       (store_redirect_link s p t d ri).redirect_links = s.redirect_links ++ [rcd]) := by
  cases ri with
  | none => exact ⟨⟨rfl, rfl, rfl, rfl, rfl⟩, Or.inl rfl⟩
  | some r =>
    by_cases h : r.is_redirect = true
    · have hrec : (store_redirect_link s p t d (some r)).redirect_links =
          s.redirect_links ++
            [{ page_containing_link := p, link_text := t,
               original_url := r.original_url, final_url := r.final_url,
               redirect_count := r.redirect_count, redirect_chain := r.redirect_chain,
               status_codes := r.status_codes, page_depth := d }] := by
        simp [store_redirect_link, h]
      exact ⟨by simp [store_redirect_link, h], Or.inr ⟨_, rfl, hrec⟩⟩
    · have h' : r.is_redirect = false := by simpa using h
      refine ⟨?_, Or.inl ?_⟩ <;> simp [store_redirect_link, h']

theorem store_anchor_text_state (s : AnalyzerState) (p t au : String) (ii : Bool)
    (ri : Option RedirectInfo) :
    ((store_anchor_text s p t au ii ri).visited_urls = s.visited_urls ∧
     (store_anchor_text s p t au ii ri).urls_to_visit = s.urls_to_visit ∧
     (store_anchor_text s p t au ii ri).ever_enqueued = s.ever_enqueued ∧
     (store_anchor_text s p t au ii ri).anchor_tags = s.anchor_tags ∧
     (store_anchor_text s p t au ii ri).redirect_links = s.redirect_links) ∧
    ((store_anchor_text s p t au ii ri).anchor_text_analysis = s.anchor_text_analysis ∨
     ∃ key item, item.source_page = p ∧
       (store_anchor_text s p t au ii ri).anchor_text_analysis =
         agg_append s.anchor_text_analysis key item) := by
  cases ii with
  | false => exact ⟨⟨rfl, rfl, rfl, rfl, rfl⟩, Or.inl rfl⟩
  | true =>
    have hrec : (store_anchor_text s p t au true ri).anchor_text_analysis =
        agg_append s.anchor_text_analysis (link_final_url au ri)
          { text := t, text_type := classify_anchor_text t, source_page := p,
            is_redirect := (match ri with
              | some r => r.is_redirect
              | none => false) } := by
      simp [store_anchor_text]
    exact ⟨by simp [store_anchor_text], Or.inr ⟨_, _, rfl, hrec⟩⟩

theorem enqueue_target_state (cfg : Config) (s : AnalyzerState) (d : Nat) (au : String)
    (ii : Bool) (ri : Option RedirectInfo) :
    ((enqueue_target cfg s d au ii ri).visited_urls = s.visited_urls ∧
     (enqueue_target cfg s d au ii ri).anchor_tags = s.anchor_tags ∧
     (enqueue_target cfg s d au ii ri).redirect_links = s.redirect_links ∧
     (enqueue_target cfg s d au ii ri).anchor_text_analysis = s.anchor_text_analysis) ∧
    (((enqueue_target cfg s d au ii ri).urls_to_visit = s.urls_to_visit ∧
      (enqueue_target cfg s d au ii ri).ever_enqueued = s.ever_enqueued) ∨
     ∃ u, d < cfg.max_depth ∧ u ∉ s.visited_urls ∧
       s.urls_to_visit.length < cfg.max_pages ∧
       (enqueue_target cfg s d au ii ri).urls_to_visit = s.urls_to_visit ++ [(u, d + 1)] ∧
       (enqueue_target cfg s d au ii ri).ever_enqueued = s.ever_enqueued ++ [(u, d + 1)]) := by
  unfold enqueue_target
  by_cases h1 : (ii && decide (d < cfg.max_depth)) = true
  · rw [if_pos h1]
    by_cases h2 : (!(s.visited_urls.contains (link_final_url au ri)) &&
        decide (s.urls_to_visit.length < cfg.max_pages)) = true
    · rw [if_pos h2]
      simp only [Bool.and_eq_true, Bool.not_eq_true', decide_eq_true_eq] at h1 h2
      exact ⟨⟨rfl, rfl, rfl, rfl⟩,
        Or.inr ⟨link_final_url au ri, h1.2, contains_false_not_mem h2.1, h2.2, rfl, rfl⟩⟩
    · rw [if_neg h2]
      exact ⟨⟨rfl, rfl, rfl, rfl⟩, Or.inl ⟨rfl, rfl⟩⟩
  · rw [if_neg h1]
    exact ⟨⟨rfl, rfl, rfl, rfl⟩, Or.inl ⟨rfl, rfl⟩⟩

/-- Everything `process_link` can do to the accumulator, field by field. -/
theorem process_link_state (env : Env) (cfg : Config) (p : String) (d : Nat) (m : String)
    (n : Nat) (acc : AnalyzerState × List AnchorRecord) (idx : Nat) (link : Link)
    (r : AnalyzerState × List AnchorRecord)
    (hr : process_link env cfg p d m n acc idx link = r) :
    (r.1.visited_urls = acc.1.visited_urls ∧ r.1.anchor_tags = acc.1.anchor_tags) ∧
    ((r.1.urls_to_visit = acc.1.urls_to_visit ∧ r.1.ever_enqueued = acc.1.ever_enqueued) ∨
     ∃ u, d < cfg.max_depth ∧ u ∉ acc.1.visited_urls ∧
       acc.1.urls_to_visit.length < cfg.max_pages ∧
       r.1.urls_to_visit = acc.1.urls_to_visit ++ [(u, d + 1)] ∧
       r.1.ever_enqueued = acc.1.ever_enqueued ++ [(u, d + 1)]) ∧
    (r.1.redirect_links = acc.1.redirect_links ∨
     ∃ rcd : RedirectLinkRecord, rcd.page_containing_link = p ∧
       r.1.redirect_links = acc.1.redirect_links ++ [rcd]) ∧
    (r.1.anchor_text_analysis = acc.1.anchor_text_analysis ∨
     ∃ key item, item.source_page = p ∧
       r.1.anchor_text_analysis = agg_append acc.1.anchor_text_analysis key item) ∧
    (r.2 = acc.2 ∨
     ∃ a : AnchorRecord, a.page_url = p ∧ a.extraction_method = m ∧ r.2 = acc.2 ++ [a]) := by
  unfold process_link at hr
  by_cases h0 : (pyStrip link.href == "" || pyStartsWith (pyStrip link.href) "javascript:" ||
      pyStartsWith (pyStrip link.href) "tel:") = true
  · rw [if_pos h0] at hr
    subst hr
    exact ⟨⟨rfl, rfl⟩, Or.inl ⟨rfl, rfl⟩, Or.inl rfl, Or.inl rfl, Or.inl rfl⟩
  · rw [if_neg h0] at hr
    subst hr
    set au := env.urljoin p (pyStrip link.href) with hau
    set ii := is_valid_internal_url env cfg au with hii
    set ri : Option RedirectInfo :=
      if ii then some (check_redirect_chain au (env.head au)) else none with hri
    set s1 := store_redirect_link acc.1 p (extract_anchor_text link) d ri with hs1
    set s2 := store_anchor_text s1 p (extract_anchor_text link) au ii ri with hs2
    obtain ⟨⟨v1, q1, e1, a1, g1⟩, r1⟩ :=
      store_redirect_link_state acc.1 p (extract_anchor_text link) d ri
    obtain ⟨⟨v2, q2, e2, a2, rl2⟩, g2⟩ :=
      store_anchor_text_state s1 p (extract_anchor_text link) au ii ri
    obtain ⟨⟨v3, a3, rl3, g3⟩, q3⟩ := enqueue_target_state cfg s2 d au ii ri
    refine ⟨⟨?_, ?_⟩, ?_, ?_, ?_, ?_⟩
    · rw [v3, v2, v1]
    · rw [a3, a2, a1]
    · rcases q3 with ⟨hq, he⟩ | ⟨u, hd, hu, hl, hq, he⟩
      · exact Or.inl ⟨by rw [hq, q2, q1], by rw [he, e2, e1]⟩
      · refine Or.inr ⟨u, hd, ?_, ?_, ?_, ?_⟩
        · rw [v2, v1] at hu; exact hu
        · rw [q2, q1] at hl; exact hl
        · rw [hq, q2, q1]
        · rw [he, e2, e1]
    · rcases r1 with h | ⟨rcd, hp, h⟩
      · exact Or.inl (by rw [rl3, rl2, h])
      · exact Or.inr ⟨rcd, hp, by rw [rl3, rl2, h]⟩
    · rcases g2 with h | ⟨key, item, hp, h⟩
      · exact Or.inl (by rw [g3, h, g1])
      · exact Or.inr ⟨key, item, hp, by rw [g3, h, g1]⟩
    · exact Or.inr ⟨_, rfl, rfl, rfl⟩

/-- Generic preservation of a predicate along a left fold. -/
theorem foldl_preserves {β : Type} {α : Type} (f : β → α → β) (P : β → Prop)
    (hstep : ∀ acc x, P acc → P (f acc x)) :
    ∀ (l : List α) (acc : β), P acc → P (l.foldl f acc)
  | [], _, h => h
  | x :: l, acc, h => foldl_preserves f P hstep l (f acc x) (hstep acc x h)

theorem agg_bucket_append (agg : List (String × List AggItem)) (key : String)
    (item : AggItem) (k : String) :
    agg_bucket (agg_append agg key item) k =
      if k = key then agg_bucket agg k ++ [item] else agg_bucket agg k := by
  induction agg with
  | nil =>
    by_cases h : k = key
    · subst h; simp [agg_append, agg_bucket]
    · have h' : ¬(key = k) := fun hh => h hh.symm
      simp [agg_append, agg_bucket, h, h']
  | cons kv rest ih =>
    obtain ⟨k0, its⟩ := kv
    by_cases h1 : k0 = key
    · subst h1
      by_cases h2 : k0 = k
      · subst h2; simp [agg_append, agg_bucket]
      · have h2' : ¬(k = k0) := fun hh => h2 hh.symm
        simp [agg_append, agg_bucket, h2, h2']
    · by_cases h2 : k0 = k
      · subst h2
        have h1' : ¬(k0 = key) := h1
        simp [agg_append, agg_bucket, h1']
      · simp [agg_append, agg_bucket, h1, h2, ih]

theorem agg_append_keys (agg : List (String × List AggItem)) (key : String) (item : AggItem) :
    (agg_append agg key item).map Prod.fst = agg.map Prod.fst ∨
    (agg_append agg key item).map Prod.fst = agg.map Prod.fst ++ [key] := by
  induction agg with
  | nil => right; simp [agg_append]
  | cons kv rest ih =>
    obtain ⟨k0, its⟩ := kv
    by_cases h : k0 = key
    · left; simp [agg_append, h]
    · rcases ih with h2 | h2
      · left; simp [agg_append, h, h2]
      · right; simp [agg_append, h, h2]

theorem agg_bucket_map_filter (q : AggItem → Bool) :
    ∀ (l : List (String × List AggItem)) (k : String),
      agg_bucket (l.map (fun kv => (kv.1, kv.2.filter q))) k = (agg_bucket l k).filter q
  | [], _ => rfl
  | (k0, its) :: rest, k => by
    by_cases h : k0 = k
    · subst h; simp [agg_bucket]
    · simp [agg_bucket, h, agg_bucket_map_filter q rest k]

theorem purge_page_artifacts_frontier (s : AnalyzerState) (url : String) :
    (purge_page_artifacts s url).visited_urls = s.visited_urls ∧
    (purge_page_artifacts s url).urls_to_visit = s.urls_to_visit ∧
    (purge_page_artifacts s url).ever_enqueued = s.ever_enqueued :=
  ⟨rfl, rfl, rfl⟩

theorem purge_page_artifacts_keys (s : AnalyzerState) (url : String) :
    (purge_page_artifacts s url).anchor_text_analysis.map Prod.fst =
      s.anchor_text_analysis.map Prod.fst := by
  simp [purge_page_artifacts]

theorem purge_page_artifacts_bucket (s : AnalyzerState) (url k : String) :
    agg_bucket (purge_page_artifacts s url).anchor_text_analysis k =
      (agg_bucket s.anchor_text_analysis k).filter
        (fun it => !(decide (it.source_page = url))) :=
  agg_bucket_map_filter _ s.anchor_text_analysis k

/-! Extraction-level invariants, by fold preservation. -/

theorem extract_anchor_data_visited (env : Env) (cfg : Config) (html p : String)
    (d : Nat) (m : String) (s : AnalyzerState) :
    (extract_anchor_data env cfg html p d m s).1.visited_urls = s.visited_urls := by
  unfold extract_anchor_data
  exact foldl_preserves _ (fun acc : AnalyzerState × List AnchorRecord =>
      acc.1.visited_urls = s.visited_urls)
    (fun acc x h => by
      obtain ⟨⟨hv, _⟩, _⟩ := process_link_state env cfg p d m s.anchor_tags.length acc x.1 x.2 _ rfl
      rw [hv, h])
    (env.parse html).enum (s, []) rfl

theorem extract_anchor_data_frontier_inv (env : Env) (cfg : Config) (html p : String)
    (d : Nat) (m : String) (s : AnalyzerState)
    (h1 : s.urls_to_visit.length ≤ max cfg.max_pages 1)
    (h2 : ∀ e ∈ s.ever_enqueued, e.2 ≤ cfg.max_depth) :
    (extract_anchor_data env cfg html p d m s).1.urls_to_visit.length ≤ max cfg.max_pages 1 ∧
    ∀ e ∈ (extract_anchor_data env cfg html p d m s).1.ever_enqueued, e.2 ≤ cfg.max_depth := by
  unfold extract_anchor_data
  exact foldl_preserves _ (fun acc : AnalyzerState × List AnchorRecord =>
      acc.1.urls_to_visit.length ≤ max cfg.max_pages 1 ∧
      ∀ e ∈ acc.1.ever_enqueued, e.2 ≤ cfg.max_depth)
    (fun acc x hP => by
      obtain ⟨_, hq, _, _, _⟩ :=
        process_link_state env cfg p d m s.anchor_tags.length acc x.1 x.2 _ rfl
      rcases hq with ⟨hq, he⟩ | ⟨u, hd, _, hl, hq, he⟩
      · exact ⟨by rw [hq]; exact hP.1, by rw [he]; exact hP.2⟩
      · constructor
        · rw [hq]
          have hm : cfg.max_pages ≤ max cfg.max_pages 1 := le_max_left _ _
          simp only [List.length_append, List.length_cons, List.length_nil]
          omega
        · rw [he]
          intro e hin
          rcases List.mem_append.mp hin with hold | hnew
          · exact hP.2 e hold
          · have : e = (u, d + 1) := by simpa using hnew
            rw [this]
            omega)
    (env.parse html).enum (s, []) ⟨h1, h2⟩

theorem extract_anchor_data_ever_new (env : Env) (cfg : Config) (html p : String)
    (d : Nat) (m : String) (s : AnalyzerState) :
    ∀ e ∈ (extract_anchor_data env cfg html p d m s).1.ever_enqueued,
      e ∈ s.ever_enqueued ∨
      (e.2 = d + 1 ∧ d < cfg.max_depth ∧ e.1 ∉ s.visited_urls) := by
  unfold extract_anchor_data
  have key := foldl_preserves _ (fun acc : AnalyzerState × List AnchorRecord =>
      acc.1.visited_urls = s.visited_urls ∧
      ∀ e ∈ acc.1.ever_enqueued,
        e ∈ s.ever_enqueued ∨ (e.2 = d + 1 ∧ d < cfg.max_depth ∧ e.1 ∉ s.visited_urls))
    (fun acc x hP => by
      obtain ⟨⟨hv, _⟩, hq, _, _, _⟩ :=
        process_link_state env cfg p d m s.anchor_tags.length acc x.1 x.2 _ rfl
      refine ⟨by rw [hv, hP.1], ?_⟩
      rcases hq with ⟨_, he⟩ | ⟨u, hd, hu, _, _, he⟩
      · rw [he]; exact hP.2
      · rw [he]
        intro e hin
        rcases List.mem_append.mp hin with hold | hnew
        · exact hP.2 e hold
        · have : e = (u, d + 1) := by simpa using hnew
          rw [this]
          right
          rw [hP.1] at hu
          exact ⟨rfl, hd, hu⟩)
    (env.parse html).enum (s, []) ⟨rfl, fun e he => Or.inl he⟩
  exact key.2

theorem extract_anchor_data_keys (env : Env) (cfg : Config) (html p : String)
    (d : Nat) (m : String) (s : AnalyzerState) :
    ∃ tail, (extract_anchor_data env cfg html p d m s).1.anchor_text_analysis.map Prod.fst =
      s.anchor_text_analysis.map Prod.fst ++ tail := by
  unfold extract_anchor_data
  exact foldl_preserves _ (fun acc : AnalyzerState × List AnchorRecord =>
      ∃ tail, acc.1.anchor_text_analysis.map Prod.fst =
        s.anchor_text_analysis.map Prod.fst ++ tail)
    (fun acc x hP => by
      obtain ⟨tail, htail⟩ := hP
      obtain ⟨_, _, _, hg, _⟩ :=
        process_link_state env cfg p d m s.anchor_tags.length acc x.1 x.2 _ rfl
      rcases hg with hg | ⟨key, item, _, hg⟩
      · exact ⟨tail, by rw [hg, htail]⟩
      · rcases agg_append_keys acc.1.anchor_text_analysis key item with hk | hk
        · exact ⟨tail, by rw [hg, hk, htail]⟩
        · exact ⟨tail ++ [key], by rw [hg, hk, htail, List.append_assoc]⟩)
    (env.parse html).enum (s, []) ⟨[], by simp⟩

/-- Every entry extraction appends to the frontier was appended at a moment
when the frontier's size was still below the page cap: the `k`-th new entry
was appended while the frontier held `t.urls_to_visit.length + k` entries,
and the guard additionally required depth `d + 1` with the parent depth
strictly below the depth cap and an unvisited target. -/
theorem extract_anchor_data_enqueue_guard (env : Env) (cfg : Config) (html p : String)
    (d : Nat) (m : String) (t : AnalyzerState) :
    ∃ new, (extract_anchor_data env cfg html p d m t).1.urls_to_visit =
        t.urls_to_visit ++ new ∧
      ∀ k e, new[k]? = some e →
        t.urls_to_visit.length + k < cfg.max_pages ∧
        e.2 = d + 1 ∧ d < cfg.max_depth ∧ e.1 ∉ t.visited_urls := by
  unfold extract_anchor_data
  have key := foldl_preserves _ (fun acc : AnalyzerState × List AnchorRecord =>
      acc.1.visited_urls = t.visited_urls ∧
      ∃ new, acc.1.urls_to_visit = t.urls_to_visit ++ new ∧
        ∀ k e, new[k]? = some e →
          t.urls_to_visit.length + k < cfg.max_pages ∧
          e.2 = d + 1 ∧ d < cfg.max_depth ∧ e.1 ∉ t.visited_urls)
    (fun acc x hP => by
      obtain ⟨hvis, new, hfr, hnew⟩ := hP
      obtain ⟨⟨hv, _⟩, hq, _, _, _⟩ :=
        process_link_state env cfg p d m t.anchor_tags.length acc x.1 x.2 _ rfl
      refine ⟨by rw [hv, hvis], ?_⟩
      rcases hq with ⟨hq, _⟩ | ⟨u, hd, hu, hl, hq, _⟩
      · exact ⟨new, by rw [hq, hfr], hnew⟩
      · refine ⟨new ++ [(u, d + 1)], by rw [hq, hfr, List.append_assoc], ?_⟩
        intro k e hk
        by_cases hklt : k < new.length
        · rw [List.getElem?_append_left hklt] at hk
          exact hnew k e hk
        · by_cases hkeq : k = new.length
          · subst hkeq
            rw [List.getElem?_concat_length] at hk
            have he : e = (u, d + 1) := by
              injection hk with h
              exact h.symm
            subst he
            rw [hfr, List.length_append] at hl
            rw [hvis] at hu
            exact ⟨hl, rfl, hd, hu⟩
          · have hge : (new ++ [(u, d + 1)]).length ≤ k := by
              simp only [List.length_append, List.length_cons, List.length_nil]
              omega
            rw [List.getElem?_eq_none_iff.mpr hge] at hk
            cases hk)
    (env.parse html).enum (t, [])
    ⟨rfl, [], (List.append_nil _).symm, fun k e hk => by simp at hk⟩
  obtain ⟨_, new, hfr, hnew⟩ := key
  exact ⟨new, hfr, hnew⟩

/-- Any state predicate preserved by extraction and the purge is preserved by
`crawl_page`. -/
theorem crawl_page_preserves (env : Env) (cfg : Config) (url : String) (depth : Nat)
    (s : AnalyzerState) (P : AnalyzerState → Prop)
    (hextract : ∀ html p d m t, P t → P (extract_anchor_data env cfg html p d m t).1)
    (hpurge : ∀ t u, P t → P (purge_page_artifacts t u))
    (h : P s) : P (crawl_page env cfg url depth s).2 := by
  unfold crawl_page
  cases hget : env.get url with
  | none => exact h
  | some resp =>
    simp only []
    by_cases hct : pyIn "text/html" (pyLower resp.content_type) = true
    · simp only [hct, Bool.not_true, Bool.false_eq_true, if_false]
      by_cases hsel : (should_use_selenium env cfg resp.body
          (extract_anchor_data env cfg resp.body url depth "requests" s).2.length).1 = true
      · simp only [hsel, if_true]
        unfold extract_anchor_data_selenium
        cases hsp : env.selenium_page url with
        | none => exact hpurge _ _ (hextract _ _ _ _ _ h)
        | some src => exact hextract _ _ _ _ _ (hpurge _ _ (hextract _ _ _ _ _ h))
      · have hsel' : (should_use_selenium env cfg resp.body
            (extract_anchor_data env cfg resp.body url depth "requests" s).2.length).1 = false := by
          simpa using hsel
        simp only [hsel', Bool.false_eq_true, if_false]
        exact hextract _ _ _ _ _ h
    · have hct' : pyIn "text/html" (pyLower resp.content_type) = false := by simpa using hct
      simp only [hct', Bool.not_false, if_true]
      exact h

theorem crawl_page_frontier_inv (env : Env) (cfg : Config) (url : String) (depth : Nat)
    (s : AnalyzerState)
    (h1 : s.urls_to_visit.length ≤ max cfg.max_pages 1)
    (h2 : ∀ e ∈ s.ever_enqueued, e.2 ≤ cfg.max_depth) :
    (crawl_page env cfg url depth s).2.urls_to_visit.length ≤ max cfg.max_pages 1 ∧
    ∀ e ∈ (crawl_page env cfg url depth s).2.ever_enqueued, e.2 ≤ cfg.max_depth :=
  crawl_page_preserves env cfg url depth s
    (fun t => t.urls_to_visit.length ≤ max cfg.max_pages 1 ∧
      ∀ e ∈ t.ever_enqueued, e.2 ≤ cfg.max_depth)
    (fun html p d m t ht => extract_anchor_data_frontier_inv env cfg html p d m t ht.1 ht.2)
    (fun t u ht => by
      obtain ⟨_, hfq, hfe⟩ := purge_page_artifacts_frontier t u
      exact ⟨by rw [hfq]; exact ht.1, by rw [hfe]; exact ht.2⟩)
    ⟨h1, h2⟩

theorem start_analysis_loop_inv (env : Env) (cfg : Config) :
    ∀ (fuel crawled : Nat) (s : AnalyzerState),
      s.urls_to_visit.length ≤ max cfg.max_pages 1 →
      (∀ e ∈ s.ever_enqueued, e.2 ≤ cfg.max_depth) →
      (start_analysis_loop env cfg fuel crawled s).2.urls_to_visit.length ≤
        max cfg.max_pages 1 ∧
      ∀ e ∈ (start_analysis_loop env cfg fuel crawled s).2.ever_enqueued,
        e.2 ≤ cfg.max_depth := by
  intro fuel
  induction fuel with
  | zero => exact fun crawled s h1 h2 => ⟨h1, h2⟩
  | succ fuel ih =>
    intro crawled s h1 h2
    cases hq : s.urls_to_visit with
    | nil =>
      simp only [start_analysis_loop, hq]
      exact ⟨by simp, h2⟩
    | cons hd rest =>
      obtain ⟨url, depth⟩ := hd
      have hrest : rest.length ≤ max cfg.max_pages 1 := by
        rw [hq] at h1
        simp only [List.length_cons] at h1
        omega
      simp only [start_analysis_loop, hq]
      split
      · split
        · exact ih crawled _ hrest h2
        · have hinv := crawl_page_frontier_inv env cfg url depth
            { s with urls_to_visit := rest, visited_urls := s.visited_urls ++ [url] }
            hrest h2
          exact ih _ _ hinv.1 hinv.2
      · exact ⟨h1, h2⟩

/-! ## C2: frontier bounds -/

/-- C2 counterexample: with `env_two_pages` and `cfg_two_pages`
(`maxPages = 1`) the completed crawl has enqueued two distinct URLs (the seed
and one child), so the number of distinct URLs ever enqueued exceeds
`maxPages`. -/
theorem frontier_bound_counterexample :
    cfg_two_pages.max_pages = 1 ∧
    (dedup_first (((start_analysis env_two_pages cfg_two_pages 10).2.ever_enqueued).map
      (fun e => e.1))).length = 2 :=
  ⟨by decide, by decide⟩

/-- C2 (amended).  The number of distinct URLs ever enqueued is *not* bounded
by `maxPages`; instead (i) the frontier's current length never exceeds
`max maxPages 1` and no entry ever enqueued has depth above `maxDepth`
(both hold initially and are preserved by the scheduler loop), and (ii)
extraction enqueues a child only at `depth + 1`, only when the parent's depth
is strictly below `maxDepth`, only when the target is not yet visited, and
only while the frontier's current size (`t.urls_to_visit.length + k` when the
`k`-th new entry is appended) is still below `maxPages`. -/
theorem frontier_bounds_amended (env : Env) (cfg : Config) (fuel crawled : Nat)
    (s : AnalyzerState)
    (h1 : s.urls_to_visit.length ≤ max cfg.max_pages 1)
    (h2 : ∀ e ∈ s.ever_enqueued, e.2 ≤ cfg.max_depth) :
    ((start_analysis_loop env cfg fuel crawled s).2.urls_to_visit.length ≤
        max cfg.max_pages 1 ∧
      ∀ e ∈ (start_analysis_loop env cfg fuel crawled s).2.ever_enqueued,
        e.2 ≤ cfg.max_depth) ∧
    (∀ (t : AnalyzerState) (html p : String) (d : Nat) (m : String),
      ∀ e ∈ (extract_anchor_data env cfg html p d m t).1.ever_enqueued,
        e ∈ t.ever_enqueued ∨ (e.2 = d + 1 ∧ d < cfg.max_depth ∧ e.1 ∉ t.visited_urls)) ∧
    (∀ (t : AnalyzerState) (html p : String) (d : Nat) (m : String),
      ∃ new, (extract_anchor_data env cfg html p d m t).1.urls_to_visit =
          t.urls_to_visit ++ new ∧
        ∀ k e, new[k]? = some e →
          t.urls_to_visit.length + k < cfg.max_pages ∧
          e.2 = d + 1 ∧ d < cfg.max_depth ∧ e.1 ∉ t.visited_urls) ∧
    ((init_state cfg).urls_to_visit.length ≤ max cfg.max_pages 1 ∧
      ∀ e ∈ (init_state cfg).ever_enqueued, e.2 ≤ cfg.max_depth) :=
  ⟨start_analysis_loop_inv env cfg fuel crawled s h1 h2,
   fun t html p d m => extract_anchor_data_ever_new env cfg html p d m t,
   fun t html p d m => extract_anchor_data_enqueue_guard env cfg html p d m t,
   by simp [init_state], by simp [init_state]⟩

/-- Witness for C2's amended theorem at the two-page fixture: the frontier
bound holds at the end of the concrete run. -/
theorem frontier_bounds_amended_witness :
    (start_analysis_loop env_two_pages cfg_two_pages 10 0
        (init_state cfg_two_pages)).2.urls_to_visit.length ≤
      max cfg_two_pages.max_pages 1 :=
  (frontier_bounds_amended env_two_pages cfg_two_pages 10 0 (init_state cfg_two_pages)
    (by decide) (by decide)).1.1

/-! ## C1: pages-crawled counter -/

/-- C1 counterexample: with `env_nonhtml` the seed is dequeued, is not
discarded (it ends up in the visited set), and its dispatch returns the
recovered "non-HTML content" failure — yet the final pages-crawled counter is
0, not 1, so a page skipped for non-HTML content-type is *not* counted as
processed. -/
theorem pages_crawled_counterexample :
    (start_analysis env_nonhtml cfg_nonhtml 5).1 = 0 ∧
    (start_analysis env_nonhtml cfg_nonhtml 5).2.visited_urls = ["https://a.com"] :=
  ⟨by decide, by decide⟩

/-- C1 (amended).  For a dequeued frontier entry that is not discarded, the
scheduler marks it visited, dispatches it, and increments the pages-crawled
counter exactly when `crawl_page` reports success; a fetch failure
(`env.get = none`, covering network errors and non-2xx statuses) and a
non-HTML content-type both yield a recovered failure with success = false, so
such pages are not counted. -/
theorem pages_crawled_increment_amended (env : Env) (cfg : Config) (fuel crawled : Nat)
    (s : AnalyzerState) (url : String) (depth : Nat) (rest : List (String × Nat))
    (hq : s.urls_to_visit = (url, depth) :: rest)
    (hc : crawled < cfg.max_pages)
    (hv : url ∉ s.visited_urls)
    (hd : depth ≤ cfg.max_depth) :
    (start_analysis_loop env cfg (fuel + 1) crawled s =
      start_analysis_loop env cfg fuel
        (if (crawl_page env cfg url depth
              { s with urls_to_visit := rest,
                       visited_urls := s.visited_urls ++ [url] }).1.1
         then crawled + 1 else crawled)
        (crawl_page env cfg url depth
          { s with urls_to_visit := rest,
                   visited_urls := s.visited_urls ++ [url] }).2) ∧
    (env.get url = none → ∀ t, (crawl_page env cfg url depth t).1.1 = false) ∧
    (∀ resp, env.get url = some resp →
      pyIn "text/html" (pyLower resp.content_type) = false →
      ∀ t, (crawl_page env cfg url depth t).1.1 = false) := by
  refine ⟨?_, ?_, ?_⟩
  · have hb1 : decide (url ∈ s.visited_urls) = false := by simp [hv]
    have hb2 : decide (cfg.max_depth < depth) = false := by simp [Nat.not_lt.mpr hd]
    simp only [start_analysis_loop, hq, if_pos hc, hb1, hb2, Bool.or_false,
      Bool.false_eq_true, if_false]
  · intro h t
    unfold crawl_page
    rw [h]
  · intro resp h hct t
    unfold crawl_page
    rw [h]
    simp [hct]

/-- Witness for C1's amended theorem at the non-HTML fixture: the dispatch of
the seed reports failure, so the counter is not incremented. -/
theorem pages_crawled_increment_amended_witness :
    (crawl_page env_nonhtml cfg_nonhtml "https://a.com" 0
      (init_state cfg_nonhtml)).1.1 = false :=
  (pages_crawled_increment_amended env_nonhtml cfg_nonhtml 4 0 (init_state cfg_nonhtml)
    "https://a.com" 0 [] rfl (by decide) (by decide) (by decide)).2.2
    { content_type := "application/pdf", body := "" } rfl (by decide)
    (init_state cfg_nonhtml)

theorem extract_anchor_data_tags (env : Env) (cfg : Config) (html p : String)
    (d : Nat) (m : String) (s : AnalyzerState) :
    (extract_anchor_data env cfg html p d m s).1.anchor_tags =
      s.anchor_tags ++ (extract_anchor_data env cfg html p d m s).2 ∧
    ∀ a ∈ (extract_anchor_data env cfg html p d m s).2,
      a.page_url = p ∧ a.extraction_method = m := by
  unfold extract_anchor_data
  have key := foldl_preserves _ (fun acc : AnalyzerState × List AnchorRecord =>
      acc.1.anchor_tags = s.anchor_tags ∧
      ∀ a ∈ acc.2, a.page_url = p ∧ a.extraction_method = m)
    (fun acc x hP => by
      obtain ⟨⟨_, ha⟩, _, _, _, hp2⟩ :=
        process_link_state env cfg p d m s.anchor_tags.length acc x.1 x.2 _ rfl
      refine ⟨by rw [ha, hP.1], ?_⟩
      rcases hp2 with h | ⟨a, hpu, hm, h⟩
      · rw [h]; exact hP.2
      · rw [h]
        intro b hb
        rcases List.mem_append.mp hb with hb | hb
        · exact hP.2 b hb
        · have : b = a := by simpa using hb
          rw [this]; exact ⟨hpu, hm⟩)
    (env.parse html).enum (s, []) ⟨rfl, by simp⟩
  refine ⟨?_, key.2⟩
  dsimp only
  rw [key.1]

theorem extract_anchor_data_redirects_frame (env : Env) (cfg : Config) (html p : String)
    (d : Nat) (m : String) (s : AnalyzerState) :
    (extract_anchor_data env cfg html p d m s).1.redirect_links.filter
      (fun rcd => !(decide (rcd.page_containing_link = p))) =
    s.redirect_links.filter (fun rcd => !(decide (rcd.page_containing_link = p))) := by
  unfold extract_anchor_data
  exact foldl_preserves _ (fun acc : AnalyzerState × List AnchorRecord =>
      acc.1.redirect_links.filter (fun rcd => !(decide (rcd.page_containing_link = p))) =
        s.redirect_links.filter (fun rcd => !(decide (rcd.page_containing_link = p))))
    (fun acc x hP => by
      obtain ⟨_, _, hr, _, _⟩ :=
        process_link_state env cfg p d m s.anchor_tags.length acc x.1 x.2 _ rfl
      rcases hr with h | ⟨rcd, hpu, h⟩
      · rw [h, hP]
      · rw [h, List.filter_append, hP]
        simp [hpu])
    (env.parse html).enum (s, []) rfl

theorem extract_anchor_data_agg_frame (env : Env) (cfg : Config) (html p : String)
    (d : Nat) (m : String) (s : AnalyzerState) (k : String) :
    (agg_bucket (extract_anchor_data env cfg html p d m s).1.anchor_text_analysis k).filter
      (fun it => !(decide (it.source_page = p))) =
    (agg_bucket s.anchor_text_analysis k).filter
      (fun it => !(decide (it.source_page = p))) := by
  unfold extract_anchor_data
  exact foldl_preserves _ (fun acc : AnalyzerState × List AnchorRecord =>
      (agg_bucket acc.1.anchor_text_analysis k).filter
        (fun it => !(decide (it.source_page = p))) =
      (agg_bucket s.anchor_text_analysis k).filter
        (fun it => !(decide (it.source_page = p))))
    (fun acc x hP => by
      obtain ⟨_, _, _, hg, _⟩ :=
        process_link_state env cfg p d m s.anchor_tags.length acc x.1 x.2 _ rfl
      rcases hg with h | ⟨key, item, hpu, h⟩
      · rw [h, hP]
      · rw [h, agg_bucket_append]
        by_cases hk : k = key
        · rw [if_pos hk, List.filter_append, hP]
          simp [hpu]
        · rw [if_neg hk, hP])
    (env.parse html).enum (s, []) rfl

/-! ## C3: the rendered-fallback purge -/

/-- C3. When `crawl_page` transitions a page to Selenium mode, the purge
removes exactly that page's artifacts — its AnchorRecords, its
RedirectLinkRecords, and its items in every aggregate bucket — and after the
full transition zero AnchorRecords with the plain (`"requests"`) extraction
method remain for that page while every other page's records are unchanged. -/
theorem selenium_purge_exact (env : Env) (cfg : Config) (s : AnalyzerState)
    (url : String) (depth : Nat) (resp : GetResponse)
    (hget : env.get url = some resp)
    (hct : pyIn "text/html" (pyLower resp.content_type) = true)
    (hsel : (should_use_selenium env cfg resp.body
        (extract_anchor_data env cfg resp.body url depth "requests" s).2.length).1 = true) :
    (∀ t : AnalyzerState,
      (purge_page_artifacts t url).anchor_tags =
        t.anchor_tags.filter (fun a => !(decide (a.page_url = url))) ∧
      (purge_page_artifacts t url).redirect_links =
        t.redirect_links.filter (fun rcd => !(decide (rcd.page_containing_link = url))) ∧
      ∀ k, agg_bucket (purge_page_artifacts t url).anchor_text_analysis k =
        (agg_bucket t.anchor_text_analysis k).filter
          (fun it => !(decide (it.source_page = url)))) ∧
    (∀ a ∈ (crawl_page env cfg url depth s).2.anchor_tags,
      a.page_url = url → a.extraction_method ≠ "requests") ∧
    ((crawl_page env cfg url depth s).2.anchor_tags.filter
        (fun a => !(decide (a.page_url = url))) =
      s.anchor_tags.filter (fun a => !(decide (a.page_url = url)))) ∧
    ((crawl_page env cfg url depth s).2.redirect_links.filter
        (fun rcd => !(decide (rcd.page_containing_link = url))) =
      s.redirect_links.filter (fun rcd => !(decide (rcd.page_containing_link = url)))) ∧
    (∀ k, (agg_bucket (crawl_page env cfg url depth s).2.anchor_text_analysis k).filter
        (fun it => !(decide (it.source_page = url))) =
      (agg_bucket s.anchor_text_analysis k).filter
        (fun it => !(decide (it.source_page = url)))) := by
  have hcp : (crawl_page env cfg url depth s).2 =
      (extract_anchor_data_selenium env cfg url depth
        (purge_page_artifacts
          (extract_anchor_data env cfg resp.body url depth "requests" s).1 url)).1 := by
    unfold crawl_page
    rw [hget]
    simp only [hct, Bool.not_true, Bool.false_eq_true, if_false, hsel, if_true]
  set t1 := (extract_anchor_data env cfg resp.body url depth "requests" s).1 with ht1
  set t2 := purge_page_artifacts t1 url with ht2
  obtain ⟨htags1, _⟩ := extract_anchor_data_tags env cfg resp.body url depth "requests" s
  have hfilter_new : ∀ (l : List AnchorRecord), (∀ a ∈ l, a.page_url = url) →
      l.filter (fun a => !(decide (a.page_url = url))) = [] := by
    intro l hl
    rw [List.filter_eq_nil_iff]
    intro a ha
    simp [hl a ha]
  have ht2tags : t2.anchor_tags = s.anchor_tags.filter (fun a => !(decide (a.page_url = url))) := by
    show t1.anchor_tags.filter (fun a => !(decide (a.page_url = url))) = _
    rw [htags1, List.filter_append,
      hfilter_new _ (fun a ha => ((extract_anchor_data_tags env cfg resp.body url depth
        "requests" s).2 a ha).1), List.append_nil]
  refine ⟨fun t => ⟨rfl, rfl, fun k => purge_page_artifacts_bucket t url k⟩, ?_, ?_, ?_, ?_⟩
  · -- no "requests" record for the purged page survives
    intro a ha hpage
    rw [hcp] at ha
    unfold extract_anchor_data_selenium at ha
    cases hsp : env.selenium_page url with
    | none =>
      rw [hsp] at ha
      rw [ht2tags] at ha
      have := (List.mem_filter.mp ha).2
      simp [hpage] at this
    | some src =>
      rw [hsp] at ha
      obtain ⟨htags2, hall2⟩ := extract_anchor_data_tags env cfg src url depth "selenium" t2
      rw [htags2] at ha
      rcases List.mem_append.mp ha with hb | hb
      · rw [ht2tags] at hb
        have := (List.mem_filter.mp hb).2
        simp [hpage] at this
      · rw [(hall2 a hb).2]
        decide
  · -- other pages' AnchorRecords unchanged
    rw [hcp]
    unfold extract_anchor_data_selenium
    cases hsp : env.selenium_page url with
    | none =>
      rw [ht2tags, List.filter_filter]
      simp [ht2tags]
    | some src =>
      obtain ⟨htags2, hall2⟩ := extract_anchor_data_tags env cfg src url depth "selenium" t2
      rw [htags2, List.filter_append, hfilter_new _ (fun a ha => (hall2 a ha).1),
        List.append_nil, ht2tags, List.filter_filter]
      simp
  · -- other pages' RedirectLinkRecords unchanged
    rw [hcp]
    unfold extract_anchor_data_selenium
    have ht2red : t2.redirect_links.filter
        (fun rcd => !(decide (rcd.page_containing_link = url))) =
        s.redirect_links.filter (fun rcd => !(decide (rcd.page_containing_link = url))) := by
      show (t1.redirect_links.filter (fun rcd => !(decide (rcd.page_containing_link = url)))).filter
          (fun rcd => !(decide (rcd.page_containing_link = url))) = _
      rw [List.filter_filter]
      simp only [Bool.and_self]
      exact extract_anchor_data_redirects_frame env cfg resp.body url depth "requests" s
    cases hsp : env.selenium_page url with
    | none => exact ht2red
    | some src =>
      rw [extract_anchor_data_redirects_frame env cfg src url depth "selenium" t2]
      exact ht2red
  · -- other pages' aggregate items unchanged
    intro k
    rw [hcp]
    unfold extract_anchor_data_selenium
    have ht2agg : (agg_bucket t2.anchor_text_analysis k).filter
        (fun it => !(decide (it.source_page = url))) =
        (agg_bucket s.anchor_text_analysis k).filter
          (fun it => !(decide (it.source_page = url))) := by
      rw [purge_page_artifacts_bucket t1 url k, List.filter_filter]
      simp only [Bool.and_self]
      exact extract_anchor_data_agg_frame env cfg resp.body url depth "requests" s k
    cases hsp : env.selenium_page url with
    | none => exact ht2agg
    | some src =>
      rw [extract_anchor_data_agg_frame env cfg src url depth "selenium" t2 k]
      exact ht2agg

/-- Witness for C3 at the `env_selenium` fixture: after the rendered
transition of the seed page, its (single) surviving record does not carry the
plain extraction method. -/
theorem selenium_purge_exact_witness :
    ((crawl_page env_selenium cfg_selenium "https://a.com" 0
        (init_state cfg_selenium)).2.anchor_tags.headD
      default_anchor_record).extraction_method ≠ "requests" :=
  (selenium_purge_exact env_selenium cfg_selenium (init_state cfg_selenium)
    "https://a.com" 0 { content_type := "text/html", body := "plain" }
    rfl (by decide) (by decide)).2.1
    ((crawl_page env_selenium cfg_selenium "https://a.com" 0
        (init_state cfg_selenium)).2.anchor_tags.headD default_anchor_record)
    (by decide) (by decide)

/-! ## C10: aggregate keys only grow -/

/-- C10. The key set of the anchor-text aggregate only grows: the purge keeps
every key (it only filters bucket contents) and extraction only appends keys;
concretely, after the `env_vanishing` fallback run the key `https://a.com/p`
has an empty bucket yet still appears in the all-target-URLs query and is
counted by the distinct-target-URL status count. -/
theorem agg_keys_only_grow :
    (∀ (s : AnalyzerState) (url : String),
      (purge_page_artifacts s url).anchor_text_analysis.map Prod.fst =
        s.anchor_text_analysis.map Prod.fst) ∧
    (∀ (env : Env) (cfg : Config) (html p : String) (d : Nat) (m : String)
        (s : AnalyzerState), ∃ tail,
      (extract_anchor_data env cfg html p d m s).1.anchor_text_analysis.map Prod.fst =
        s.anchor_text_analysis.map Prod.fst ++ tail) ∧
    ((start_analysis env_vanishing cfg_vanishing 10).2.anchor_text_analysis =
      [("https://a.com/p", [])] ∧
      get_all_urls (start_analysis env_vanishing cfg_vanishing 10).2 = ["https://a.com/p"] ∧
      unique_urls_with_anchors (start_analysis env_vanishing cfg_vanishing 10).2 = 1) :=
  ⟨purge_page_artifacts_keys,
   fun env cfg html p d m s => extract_anchor_data_keys env cfg html p d m s,
   by decide, by decide, by decide⟩

/-! ## Counter and stable-sort lemmas for the report query -/

theorem mem_dedup_first : ∀ (l : List String) (x : String), x ∈ dedup_first l ↔ x ∈ l
  | [], x => by simp [dedup_first]
  | a :: l, x => by
    by_cases hx : x = a
    · subst hx; simp [dedup_first]
    · simp [dedup_first, List.mem_filter, hx, mem_dedup_first l x]

theorem dedup_first_nodup : ∀ l : List String, (dedup_first l).Nodup
  | [] => List.nodup_nil
  | a :: l => by
    simp only [dedup_first, List.nodup_cons]
    constructor
    · intro hmem
      have := (List.mem_filter.mp hmem).2
      simp at this
    · exact (dedup_first_nodup l).filter _

theorem sum_filter_remove (f : String → Nat) (a : String) :
    ∀ L : List String, L.Nodup →
      (L.map f).sum = (if a ∈ L then f a else 0) +
        ((L.filter (fun b => !(decide (b = a)))).map f).sum := by
  intro L
  induction L with
  | nil => simp
  | cons b L ih =>
    intro hnd
    rw [List.nodup_cons] at hnd
    obtain ⟨hbL, hLnd⟩ := hnd
    by_cases hab : a = b
    · subst hab
      have hfid : L.filter (fun x => !(decide (x = a))) = L := by
        rw [List.filter_eq_self]
        intro x hx
        simp
        exact fun h => hbL (h ▸ hx)
      simp [List.filter_cons, hfid, hbL]
    · have hab' : ¬(b = a) := fun h => hab h.symm
      have hfc : (b :: L).filter (fun x => !(decide (x = a))) =
          b :: L.filter (fun x => !(decide (x = a))) := by
        simp [List.filter_cons, hab']
      rw [List.map_cons, List.sum_cons, ih hLnd, hfc, List.map_cons, List.sum_cons]
      have hmemiff : (a ∈ b :: L) ↔ a ∈ L := by simp [hab]
      rw [if_congr hmemiff rfl rfl]
      omega

theorem sum_count_dedup_first : ∀ l : List String,
    ((dedup_first l).map (fun t => py_count l t)).sum = l.length
  | [] => rfl
  | a :: l => by
    have hnd := dedup_first_nodup l
    simp only [dedup_first, List.map_cons, List.sum_cons]
    have hca : py_count (a :: l) a = py_count l a + 1 := by
      simp [py_count, List.filter_cons]
    have hmap : (((dedup_first l).filter (fun b => !(decide (b = a)))).map
          (fun t => py_count (a :: l) t)) =
        (((dedup_first l).filter (fun b => !(decide (b = a)))).map
          (fun t => py_count l t)) := by
      apply List.map_congr_left
      intro t ht
      have htne : ¬(t = a) := by
        have := (List.mem_filter.mp ht).2
        simpa using this
      have htne' : ¬(a = t) := fun h => htne h.symm
      simp [py_count, List.filter_cons, htne']
    rw [hca, hmap]
    have hA := sum_filter_remove (fun t => py_count l t) a (dedup_first l) hnd
    rw [sum_count_dedup_first l] at hA
    by_cases hal : a ∈ l
    · rw [if_pos ((mem_dedup_first l a).mpr hal)] at hA
      dsimp only at hA
      simp only [List.length_cons]
      omega
    · rw [if_neg (fun hm => hal ((mem_dedup_first l a).mp hm))] at hA
      have hc0 : py_count l a = 0 := by
        unfold py_count
        rw [List.length_eq_zero, List.filter_eq_nil_iff]
        intro x hx
        simp only [decide_eq_true_eq]
        exact fun h => hal (h ▸ hx)
      simp only [List.length_cons]
      omega

theorem mem_insert_by_count (a x : String × Nat) :
    ∀ l, x ∈ insert_by_count a l ↔ x = a ∨ x ∈ l
  | [] => by simp [insert_by_count]
  | b :: l => by
    by_cases h : b.2 ≤ a.2 <;>
      simp only [insert_by_count, h, if_true, if_false, List.mem_cons,
        mem_insert_by_count a x l]
    tauto

theorem pairwise_insert_by_count (a : String × Nat) (l : List (String × Nat))
    (h : l.Pairwise (fun x y => y.2 ≤ x.2)) :
    (insert_by_count a l).Pairwise (fun x y => y.2 ≤ x.2) := by
  induction l with
  | nil => simp [insert_by_count]
  | cons b l ih =>
    rw [List.pairwise_cons] at h
    obtain ⟨hb, hl⟩ := h
    by_cases hc : b.2 ≤ a.2
    · simp only [insert_by_count, if_pos hc]
      rw [List.pairwise_cons]
      refine ⟨?_, ?_⟩
      · intro y hy
        rcases List.mem_cons.mp hy with rfl | hy
        · exact hc
        · exact le_trans (hb y hy) hc
      · rw [List.pairwise_cons]
        exact ⟨hb, hl⟩
    · simp only [insert_by_count, if_neg hc]
      rw [List.pairwise_cons]
      refine ⟨?_, ih hl⟩
      intro y hy
      rcases (mem_insert_by_count a y l).mp hy with rfl | hy
      · omega
      · exact hb y hy

theorem most_common_sorted : ∀ l : List (String × Nat),
    (most_common l).Pairwise (fun x y => y.2 ≤ x.2)
  | [] => List.Pairwise.nil
  | a :: l => pairwise_insert_by_count a (most_common l) (most_common_sorted l)

theorem filter_insert_by_count (a : String × Nat) (c : Nat) :
    ∀ l : List (String × Nat),
      (insert_by_count a l).filter (fun x => decide (x.2 = c)) =
        if a.2 = c then a :: l.filter (fun x => decide (x.2 = c))
        else l.filter (fun x => decide (x.2 = c))
  | [] => by
    by_cases h : a.2 = c <;> simp [insert_by_count, List.filter_cons, h]
  | b :: l => by
    by_cases hc : b.2 ≤ a.2
    · simp only [insert_by_count, if_pos hc]
      by_cases h : a.2 = c <;> simp [List.filter_cons, h]
    · simp only [insert_by_count, if_neg hc]
      rw [List.filter_cons, filter_insert_by_count a c l]
      by_cases ha : a.2 = c
      · have hbc : ¬(b.2 = c) := by omega
        simp [ha, hbc, List.filter_cons]
      · by_cases hb : b.2 = c <;> simp [ha, hb, List.filter_cons]

theorem filter_most_common (c : Nat) : ∀ l : List (String × Nat),
    (most_common l).filter (fun x => decide (x.2 = c)) =
      l.filter (fun x => decide (x.2 = c))
  | [] => rfl
  | a :: l => by
    show (insert_by_count a (most_common l)).filter _ = _
    rw [filter_insert_by_count, filter_most_common c l, List.filter_cons]
    by_cases h : a.2 = c <;> simp [h]

theorem breakdown_filter_map {f : (String × Nat) → BreakdownEntry}
    (hc : ∀ tc, (f tc).count = tc.2) (hn : ∀ tc, (f tc).anchor_text = tc.1) (c : Nat) :
    ∀ L : List (String × Nat),
      ((L.map f).filter (fun e => decide (e.count = c))).map (fun e => e.anchor_text) =
        (L.filter (fun tc => decide (tc.2 = c))).map (fun tc => tc.1)
  | [] => rfl
  | tc :: L => by
    by_cases h : tc.2 = c <;>
      simp [List.filter_cons, hc, hn, h, breakdown_filter_map hc hn c L]

theorem pair_filter_map (cnt : String → Nat) (c : Nat) :
    ∀ L : List String,
      ((L.map (fun t => (t, cnt t))).filter (fun tc => decide (tc.2 = c))).map
          (fun tc => tc.1) =
        L.filter (fun t => decide (cnt t = c))
  | [] => rfl
  | t :: L => by
    by_cases h : cnt t = c <;>
      simp [List.filter_cons, h, pair_filter_map cnt c L]

/-! ## C8: the per-URL anchor-text report -/

/-- C8. `get_anchor_text_report_for_url` first normalizes the target URL; it
returns `none` exactly when neither an aggregate item keyed by the normalized
URL nor a redirect record ending at it exists; otherwise the report carries
the total occurrence count over both sources, the distinct-anchor-text count,
and a breakdown ordered by descending count whose ties keep first-encountered
order, where each entry has at most 5 example source pages and a flag that is
set exactly when some occurrence arrived via a redirect. -/
theorem report_for_url_correct (s : AnalyzerState) (target : String) :
    (get_anchor_text_report_for_url s target = none ↔
      matching_data_of s (clean_url target) = []) ∧
    (∀ rep, get_anchor_text_report_for_url s target = some rep →
      rep.target_url = clean_url target ∧
      rep.total_links_found = (matching_data_of s (clean_url target)).length ∧
      rep.unique_anchor_texts =
        (dedup_first ((matching_data_of s (clean_url target)).map
          (fun it => it.text))).length ∧
      rep.anchor_text_breakdown.Pairwise (fun e1 e2 => e2.count ≤ e1.count) ∧
      (∀ c : Nat,
        (rep.anchor_text_breakdown.filter (fun e => decide (e.count = c))).map
            (fun e => e.anchor_text) =
          (dedup_first ((matching_data_of s (clean_url target)).map
              (fun it => it.text))).filter
            (fun t => decide (py_count ((matching_data_of s (clean_url target)).map
              (fun it => it.text)) t = c))) ∧
      (∀ e ∈ rep.anchor_text_breakdown, e.source_pages.length ≤ 5) ∧
      (∀ e ∈ rep.anchor_text_breakdown,
        e.has_redirects = (matching_data_of s (clean_url target)).any
          (fun it => decide (it.text = e.anchor_text) && it.is_redirect))) := by
  by_cases hemp : (matching_data_of s (clean_url target)).isEmpty = true
  · have hnone : get_anchor_text_report_for_url s target = none := by
      unfold get_anchor_text_report_for_url
      simp only [hemp, if_true]
    refine ⟨?_, ?_⟩
    · rw [hnone]
      simp [List.isEmpty_iff.mp hemp]
    · intro rep hrep
      rw [hnone] at hrep
      simp at hrep
  · have hemp' : (matching_data_of s (clean_url target)).isEmpty = false := by
      simpa using hemp
    refine ⟨?_, ?_⟩
    · constructor
      · intro hrep
        unfold get_anchor_text_report_for_url at hrep
        simp only [hemp', Bool.false_eq_true, if_false] at hrep
        exact absurd hrep (Option.some_ne_none _)
      · intro hmat
        rw [hmat] at hemp
        simp at hemp
    · intro rep hrep
      unfold get_anchor_text_report_for_url at hrep
      simp only [hemp', Bool.false_eq_true, if_false, Option.some.injEq] at hrep
      subst hrep
      refine ⟨rfl, ?_, ?_, ?_, ?_, ?_, ?_⟩
      · -- total count
        show ((counter_items ((matching_data_of s (clean_url target)).map
            (fun it => it.text))).map (fun tc => tc.2)).sum = _
        unfold counter_items
        rw [List.map_map]
        rw [show ((fun tc : String × Nat => tc.2) ∘
            (fun t => (t, py_count ((matching_data_of s (clean_url target)).map
              (fun it => it.text)) t))) =
            (fun t => py_count ((matching_data_of s (clean_url target)).map
              (fun it => it.text)) t) from rfl]
        rw [sum_count_dedup_first]
        exact List.length_map _ _
      · -- distinct texts
        show (counter_items ((matching_data_of s (clean_url target)).map
            (fun it => it.text))).length = _
        unfold counter_items
        exact List.length_map _ _
      · -- sorted by descending count
        show (List.Pairwise _ (List.map _ (most_common _)))
        rw [List.pairwise_map]
        exact most_common_sorted _
      · -- ties keep first-encountered order
        intro c
        rw [breakdown_filter_map (fun tc => rfl) (fun tc => rfl) c, filter_most_common]
        unfold counter_items
        rw [pair_filter_map]
      · -- at most 5 example pages
        intro e he
        obtain ⟨tc, _, rfl⟩ := List.mem_map.mp he
        show ((source_pages_of _ tc.1).take 5).length ≤ 5
        rw [List.length_take]
        exact min_le_left _ _
      · -- redirect flag
        intro e he
        obtain ⟨tc, _, rfl⟩ := List.mem_map.mp he
        show detail_has_redirects _ tc.1 = _
        unfold detail_has_redirects
        rw [List.any_filter]

/-- Witness for C8 at `report_state`: the report for `https://t.com/x` exists
and its total equals the number of matching items (two aggregate items plus
one redirect record). -/
theorem report_for_url_correct_witness :
    ((get_anchor_text_report_for_url report_state "https://t.com/x").getD
        empty_report).total_links_found =
      (matching_data_of report_state (clean_url "https://t.com/x")).length :=
  ((report_for_url_correct report_state "https://t.com/x").2
    ((get_anchor_text_report_for_url report_state "https://t.com/x").getD empty_report)
    (by decide)).2.1

end LinkHound
